import Mathlib

/-!
Verification of `examples/er-rest-example/rest-server-example.c`.

Shallow embedding of the REST example resources: the chunk-wise resource
(`chunks_handler`), the separate-response resource (`separate_handler`,
`separate_finalize_handler`), the LED actuator (`leds_handler`), the hello-world resource
(`helloworld_handler`) and the event resource (`event_event_handler`).

Conventions of the embedding
* `int32_t` values (`*offset`, `strpos`) are `Int`; `uint16_t preferred_size` and
  `uint8_t` bytes are `Nat`.  On the paths modelled no `int32_t` computation leaves the
  32-bit range for `preferred_size < 65536`, so no wrap-around is inserted.
* The frame buffer is the memory starting at the `buffer` pointer, a map from byte index
  to byte; every store the handler performs is also recorded in a write log.
* Calls into the REST engine, the CoAP transaction layer and the LED driver are recorded
  as effects or taken as parameters of an environment.
-/

namespace RestServerExample

/-! ## C library primitives -/

/-- One byte stored through a pointer: index relative to the buffer start, the byte, and
whether it is the terminator that `snprintf` appends. -/
structure mem_write where
  idx : Nat
  byte : Nat
  terminator : Bool
  deriving DecidableEq, Repr

/-- Characters of a C string literal as bytes. -/
def c_bytes (s : String) : List Nat := s.toList.map Char.toNat

/-- Text produced by the conversion `%ld`: decimal digits, preceded by `-` for a
negative value. -/
def fmt_ld (v : Int) : List Nat :=
  (if v < 0 then [45] else []) ++ (Nat.toDigits 10 v.natAbs).map Char.toNat

/-- Text produced by the format `"|%ld|"`. -/
def fmt_bar_ld_bar (v : Int) : List Nat := [124] ++ fmt_ld v ++ [124]

/-- Return value of `snprintf`: the length of the complete formatted text, whether or not
it was truncated by the size argument. -/
def snprintf_ret (text : List Nat) : Int := text.length

/-- Stores performed by `snprintf(buffer + pos, size, ...)` for formatted text `text`:
at most `size - 1` characters followed by the terminator; nothing when `size = 0`. -/
def snprintf_writes (pos size : Nat) (text : List Nat) : List mem_write :=
  if size = 0 then []
  else
    ((text.take (size - 1)).enum.map fun ib => mem_write.mk (pos + ib.1) ib.2 false)
      ++ [mem_write.mk (pos + (text.take (size - 1)).length) 0 true]

/-- Memory after one store. -/
def store_byte (m : Nat → Nat) (w : mem_write) : Nat → Nat :=
  fun i => if i = w.idx then w.byte else m i

/-- Memory after a sequence of stores, oldest first. -/
def apply_writes (m : Nat → Nat) (ws : List mem_write) : Nat → Nat :=
  ws.foldl store_byte m

/-- The function `strlen` on a character array: the index of the first NUL, undefined
(`none`) when the array holds none. -/
def strlen : List Nat → Option Nat
  | [] => none
  | b :: bs => if b = 0 then some 0 else (strlen bs).map (· + 1)

/-- The function `strncmp(a, b, n)`; the lists are the bytes found from each pointer on,
a byte past the end of a list reads as NUL. -/
def strncmp : List Nat → List Nat → Nat → Int
  | _, _, 0 => 0
  | a, b, n + 1 =>
    let x := a.headD 0
    let y := b.headD 0
    if x ≠ y then (x : Int) - (y : Int)
    else if x = 0 then 0
    else strncmp a.tail b.tail n

/-! ## REST engine interface -/

/-- Members of `REST.status` used by the handlers. -/
inductive rest_status where
  | BAD_OPTION
  | BAD_REQUEST
  | SERVICE_UNAVAILABLE
  deriving DecidableEq, Repr

/-- Pointer argument of `REST.set_response_payload`: the frame buffer lent to the handler
or a string literal. -/
inductive payload_ptr where
  | frame
  | literal (s : String)
  deriving DecidableEq, Repr

/-- What a handler has set on the response handle: the status passed to
`REST.set_response_status` and the pointer and length passed to
`REST.set_response_payload` (`none` while not set by the handler). -/
structure rest_response where
  status : Option rest_status
  payload : Option (payload_ptr × Int)
  deriving DecidableEq, Repr

/-! ## Chunk-wise resource -/

def CHUNKS_TOTAL : Int := 2050

/-- Local state of the data-generation loop of `chunks_handler`: `strpos`, the stores done
so far and the number of loop rounds executed. -/
structure gen_state where
  strpos : Int
  writes : List mem_write
  rounds : Nat
  deriving DecidableEq, Repr

/-- One round of the loop body:
`strpos += snprintf((char *)buffer+strpos, preferred_size-strpos+1, "|%ld|", *offset);` -/
def chunks_round (preferred_size : Nat) (offset : Int) (s : gen_state) : gen_state :=
  { strpos := s.strpos + snprintf_ret (fmt_bar_ld_bar offset)
    writes := s.writes ++
      snprintf_writes s.strpos.toNat ((preferred_size : Int) - s.strpos + 1).toNat
        (fmt_bar_ld_bar offset)
    rounds := s.rounds + 1 }

/-- The loop `while (strpos<preferred_size) { ... }`, run for at most `fuel` rounds;
`none` when the condition still holds after `fuel` rounds. -/
def chunks_loop (preferred_size : Nat) (offset : Int) : Nat → gen_state → Option gen_state
  | 0, s => if s.strpos < (preferred_size : Int) then none else some s
  | fuel + 1, s =>
    if s.strpos < (preferred_size : Int) then
      chunks_loop preferred_size offset fuel (chunks_round preferred_size offset s)
    else some s

/-- Outcome of one invocation of `chunks_handler`. -/
structure chunks_result where
  response : rest_response
  writes : List mem_write
  buffer : Nat → Nat
  offset : Int
  rounds : Nat

/-- The handler `chunks_handler(request, response, buffer, preferred_size, offset)`.
The loop is run with fuel `preferred_size`. -/
def chunks_handler (response : rest_response) (buffer : Nat → Nat) (preferred_size : Nat)
    (offset : Int) : Option chunks_result :=
  if offset ≥ CHUNKS_TOTAL then
    some
      { response :=
          { response with
            status := some rest_status.BAD_OPTION
            payload := some (payload_ptr.literal "BlockOutOfScope",
              ("BlockOutOfScope".length : Int)) }
        writes := []
        buffer := buffer
        offset := offset
        rounds := 0 }
  else
    match chunks_loop preferred_size offset preferred_size ⟨0, [], 0⟩ with
    | none => none
    | some g =>
      let strpos1 : Int := if g.strpos > (preferred_size : Int) then preferred_size else g.strpos
      let strpos2 : Int := if offset + strpos1 > CHUNKS_TOTAL then CHUNKS_TOTAL - offset else strpos1
      let offset1 : Int := offset + strpos2
      some
        { response := { response with payload := some (payload_ptr.frame, strpos2) }
          writes := g.writes
          buffer := apply_writes buffer g.writes
          offset := if offset1 ≥ CHUNKS_TOTAL then -1 else offset1
          rounds := g.rounds }

/-- Length reported by the handler as payload length (`0` while no payload is set). -/
def payload_len (r : chunks_result) : Int :=
  match r.response.payload with
  | some (_, n) => n
  | none => 0

/-- Modelled from the spec: the engine side of a chunk-wise transfer, which is not part of
the example file.  The handler is invoked with the cursor, the cursor it leaves is passed
to the next invocation, and the transfer ends when the cursor is the sentinel `-1`.  The
result lists every invocation with the cursor it was entered with; `none` when the transfer
is not finished after `fuel` invocations. -/
def chunks_transfer (preferred_size : Nat) :
    Nat → (Nat → Nat) → Int → Option (List (Int × chunks_result))
  | 0, _, _ => none
  | fuel + 1, buffer, cursor =>
    match chunks_handler ⟨none, none⟩ buffer preferred_size cursor with
    | none => none
    | some r =>
      if r.offset = -1 then some [(cursor, r)]
      else (chunks_transfer preferred_size fuel r.buffer r.offset).map fun tr => (cursor, r) :: tr

/-- Stores that respect a frame of `p` bytes plus one byte of headroom: no index above
`p`, characters of the text strictly below `p`, and the terminator byte is NUL. -/
def write_ok (p : Nat) (w : mem_write) : Prop :=
  w.idx ≤ p ∧ (w.terminator = false → w.idx < p) ∧ (w.terminator = true → w.byte = 0)

/-- Number of text characters (stores other than terminators) in a write log. -/
def text_count (ws : List mem_write) : Nat :=
  (ws.filter fun w => !w.terminator).length

/-! ## Separate-response resource -/

/-- Modelled from the spec: the record `coap_separate_t` of `er-coap-07-separate.h`, which
holds the client address and port, the message type, the MID, the token and the Block2
parameters of the deferred request. -/
structure coap_separate_t where
  addr : List Nat
  port : Nat
  type : Nat
  mid : Nat
  token_len : Nat
  token : List Nat
  block2_num : Nat
  block2_size : Nat
  deriving DecidableEq, Repr

/-- The record `application_separate_store_t`; `buffer` is the array `char buffer[16]`. -/
structure application_separate_store_t where
  request_metadata : coap_separate_t
  buffer : List Nat
  deriving DecidableEq, Repr

/-- The static variables `separate_active` and `separate_store[1]`. -/
structure separate_state where
  separate_active : Nat
  separate_store : application_separate_store_t
  deriving DecidableEq, Repr

/-- The CoAP functions called by the separate resource, which live outside the example
file (`er-coap-07*.h`); they are parameters of the model.  `coap_serialize_message` yields
the bytes stored in `transaction->packet` and its return value. -/
structure coap_env (Request Packet Transaction : Type) where
  CONTENT_2_05 : Nat
  coap_separate_yield : Request → coap_separate_t → coap_separate_t
  coap_new_transaction : Nat → List Nat → Nat → Option Transaction
  coap_separate_resume : coap_separate_t → Nat → Packet
  coap_set_payload : Packet → List Nat → Nat → Packet
  coap_set_header_block2 : Packet → Nat → Nat → Nat → Packet
  coap_serialize_message : Packet → List Nat × Nat

/-- Calls into the transaction layer made by `separate_finalize_handler`. -/
inductive coap_effect (Transaction : Type) where
  | new_transaction (mid : Nat) (addr : List Nat) (port : Nat)
  | send_transaction (t : Transaction) (packet : List Nat) (packet_len : Nat)

/-- Contents of a character array after a sequence of stores. -/
def array_store (a : List Nat) (ws : List mem_write) : List Nat :=
  ws.foldl (fun acc w => acc.set w.idx w.byte) a

/-- The handler `separate_handler(request, response, buffer, preferred_size, offset)`. -/
def separate_handler {Request Packet Transaction : Type}
    (env : coap_env Request Packet Transaction) (request : Request)
    (response : rest_response) (st : separate_state) : rest_response × separate_state :=
  if st.separate_active ≠ 0 then
    ({ response with
        status := some rest_status.SERVICE_UNAVAILABLE
        payload := some (payload_ptr.literal "AlreadyInUse", ("AlreadyInUse".length : Int)) },
      st)
  else
    (response,
      { separate_active := 1
        separate_store :=
          { request_metadata :=
              env.coap_separate_yield request st.separate_store.request_metadata
            buffer :=
              array_store st.separate_store.buffer
                (snprintf_writes 0 16 (c_bytes "StoredInfo")) } })

/-- The function `separate_finalize_handler()`.  The result is `none` when
`strlen(separate_store->buffer)` is undefined because the array holds no terminator. -/
def separate_finalize_handler {Request Packet Transaction : Type}
    (env : coap_env Request Packet Transaction) (st : separate_state) :
    Option (separate_state × List (coap_effect Transaction)) :=
  let md := st.separate_store.request_metadata
  if st.separate_active ≠ 0 then
    match env.coap_new_transaction md.mid md.addr md.port with
    | some transaction =>
      match strlen st.separate_store.buffer with
      | none => none
      | some n =>
        let response0 := env.coap_separate_resume md env.CONTENT_2_05
        let response1 := env.coap_set_payload response0 st.separate_store.buffer n
        let response2 := env.coap_set_header_block2 response1 md.block2_num 0 md.block2_size
        let msg := env.coap_serialize_message response2
        some ({ st with separate_active := 0 },
          [coap_effect.new_transaction md.mid md.addr md.port,
           coap_effect.send_transaction transaction msg.1 msg.2])
    | none => some (st, [coap_effect.new_transaction md.mid md.addr md.port])
  else some (st, [])

/-! ## LED actuator resource -/

/-- Modelled from the spec: the request accessors `REST.get_query_variable` and
`REST.get_post_variable` (query-variable lookup of the engine).  For a variable name they
give the bytes of its value, `none` when the request carries no such variable; the C
accessor returns the length of the value (`0` when absent) and points the out-parameter at
the value, which is not NUL-terminated. -/
structure rest_request where
  get_query_variable : String → Option (List Nat)
  get_post_variable : String → Option (List Nat)

/-- Return value of a variable accessor: the length of the value found, `0` otherwise. -/
def variable_len (v : Option (List Nat)) : Nat :=
  match v with
  | some bs => bs.length
  | none => 0

/-- Bytes a variable pointer points at (nothing when the accessor left it `NULL`). -/
def variable_bytes (v : Option (List Nat)) : List Nat :=
  match v with
  | some bs => bs
  | none => []

/-- A string literal in memory: its characters and the terminator. -/
def c_str (s : String) : List Nat := c_bytes s ++ [0]

/-- The LED masks of `dev/leds.h`, parameters of the model. -/
structure leds_consts where
  LEDS_RED : Nat
  LEDS_GREEN : Nat
  LEDS_BLUE : Nat

/-- Calls into the LED driver. -/
inductive led_effect where
  | leds_on (led : Nat)
  | leds_off (led : Nat)
  deriving DecidableEq, Repr

/-- The handler `leds_handler(request, response, buffer, preferred_size, offset)`: the
response it leaves and the driver calls it makes. -/
def leds_handler (k : leds_consts) (request : rest_request) (response : rest_response) :
    rest_response × List led_effect :=
  let color := request.get_query_variable "color"
  let len := variable_len color
  let sel : Nat × Bool :=
    if len ≠ 0 then
      if strncmp (variable_bytes color) (c_str "r") len = 0 then (k.LEDS_RED, true)
      else if strncmp (variable_bytes color) (c_str "g") len = 0 then (k.LEDS_GREEN, true)
      else if strncmp (variable_bytes color) (c_str "b") len = 0 then (k.LEDS_BLUE, true)
      else (0, false)
    else (0, false)
  let led := sel.1
  let mode := request.get_post_variable "mode"
  let len2 := variable_len mode
  let act : List led_effect × Bool :=
    if sel.2 = true ∧ len2 ≠ 0 then
      if strncmp (variable_bytes mode) (c_str "on") len2 = 0 then ([led_effect.leds_on led], true)
      else if strncmp (variable_bytes mode) (c_str "off") len2 = 0 then
        ([led_effect.leds_off led], true)
      else ([], false)
    else ([], false)
  (if act.2 = false then { response with status := some rest_status.BAD_REQUEST } else response,
    act.1)

/-- Number of stores in a write log that hit byte index `i`. -/
def stores_at (i : Nat) (ws : List mem_write) : Nat :=
  (ws.filter fun w => decide (w.idx = i)).length

/-- Invariant of the data-generation loop for a frame of `p` bytes: `strpos` is not
negative, every store so far respects the frame and lies at an index up to `strpos`, the
number of text characters stored is at most `strpos` and at most `p`, and index `p` has
been stored to at most once. -/
def gen_inv (p : Nat) (s : gen_state) : Prop :=
  0 ≤ s.strpos ∧ (∀ w ∈ s.writes, write_ok p w) ∧
    (∀ w ∈ s.writes, (w.idx : Int) ≤ s.strpos) ∧
    (text_count s.writes : Int) ≤ s.strpos ∧ text_count s.writes ≤ p ∧
    stores_at p s.writes ≤ 1

/-! ## States of the separate resource and example inputs -/

/-- Number of transactions handed to the transport in a log of calls. -/
def sent_count {Transaction : Type} : List (coap_effect Transaction) → Nat
  | [] => 0
  | coap_effect.send_transaction _ _ _ :: es => sent_count es + 1
  | coap_effect.new_transaction _ _ _ :: es => sent_count es

/-- Number of transaction requests in a log of calls. -/
def acquire_count {Transaction : Type} : List (coap_effect Transaction) → Nat
  | [] => 0
  | coap_effect.new_transaction _ _ _ :: es => acquire_count es + 1
  | coap_effect.send_transaction _ _ _ :: es => acquire_count es

/-- States of the separate resource that the program can be in: at start
`separate_active` is `0` and the store holds a 16-byte array; afterwards the state changes
only through `separate_handler` and `separate_finalize_handler`. -/
inductive separate_reachable {Request Packet Transaction : Type}
    (env : coap_env Request Packet Transaction) : separate_state → Prop where
  | start (md : coap_separate_t) (buf : List Nat) (hlen : buf.length = 16) :
      separate_reachable env ⟨0, ⟨md, buf⟩⟩
  | deferral (st : separate_state) (request : Request) (response : rest_response) :
      separate_reachable env st →
      separate_reachable env (separate_handler env request response st).2
  | finalize (st st1 : separate_state) (log : List (coap_effect Transaction)) :
      separate_reachable env st →
      separate_finalize_handler env st = some (st1, log) →
      separate_reachable env st1

/-- An environment for evaluating the separate resource on examples: a request is the
metadata to capture, a packet is the list of values set on it, a transaction is named by
its MID, and a transaction is available when `free` is true. -/
def sample_env (free : Bool) : coap_env coap_separate_t (List Nat) Nat where
  CONTENT_2_05 := 69
  coap_separate_yield := fun request _ => request
  coap_new_transaction := fun mid _ _ => if free then some mid else none
  coap_separate_resume := fun md code => [code, md.type, md.mid]
  coap_set_payload := fun pkt payload n => pkt ++ payload.take n
  coap_set_header_block2 := fun pkt num more size => pkt ++ [num, more, size]
  coap_serialize_message := fun pkt => (pkt, pkt.length)

/-- Metadata of an example request: confirmable, MID 4660, Block2 number 0 and size 64. -/
def sample_request : coap_separate_t :=
  { addr := [254, 128, 0, 0, 0, 0, 0, 0, 0, 0, 0, 0, 0, 0, 0, 1]
    port := 5683
    type := 0
    mid := 4660
    token_len := 1
    token := [7]
    block2_num := 0
    block2_size := 64 }

/-- The state at start: slot free, store zeroed. -/
def sample_idle : separate_state :=
  { separate_active := 0
    separate_store :=
      { request_metadata := ⟨List.replicate 16 0, 0, 0, 0, 0, [], 0, 0⟩
        buffer := List.replicate 16 0 } }

/-- The state after one accepted deferral of `sample_request`. -/
def sample_pending : separate_state :=
  { separate_active := 1
    separate_store :=
      { request_metadata := sample_request
        buffer := c_bytes "StoredInfo" ++ [0, 0, 0, 0, 0, 0] } }

/-- A request to the LED resource with the given `color` query value and `mode` post
value. -/
def leds_request (color mode : Option String) : rest_request :=
  { get_query_variable := fun name => if name = "color" then color.map c_bytes else none
    get_post_variable := fun name => if name = "mode" then mode.map c_bytes else none }

/-! ## Hello-world resource -/

/-- The macro `REST_MAX_CHUNK_SIZE` of the engine and the C library function `atoi`, which
are not part of the example file; parameters of the model.  `atoi` is given the bytes found
from its pointer argument on. -/
structure hello_env where
  REST_MAX_CHUNK_SIZE : Nat
  atoi : List Nat → Int

/-- The string literal `message` of `helloworld_handler`. -/
def hello_message : String :=
  "Hello World! ABCDEFGHIJKLMNOPQRSTUVWXYZabcdefghijklmnopqrstuvwxy"

/-- Stores of `memcpy(buffer, src, n)`, where `src` lists the bytes of the source object;
undefined (`none`) when `n` exceeds the size of the source object. -/
def memcpy_writes (src : List Nat) (n : Nat) : Option (List mem_write) :=
  if n ≤ src.length then
    some ((List.range n).map fun i => mem_write.mk i (src.getD i 0) false)
  else none

/-- Header options set by `helloworld_handler`: the content type `REST.type.TEXT_PLAIN`,
and an ETag of `len` bytes read at the address of the local variable `length`, whose value
is recorded. -/
inductive rest_header where
  | content_type_TEXT_PLAIN
  | etag (length : Int) (len : Nat)
  deriving DecidableEq, Repr

/-- Outcome of one invocation of `helloworld_handler`. -/
structure hello_result where
  response : rest_response
  headers : List rest_header
  writes : List mem_write
  buffer : Nat → Nat

/-- The local variable `length` of `helloworld_handler` when `memcpy` is reached: the
result of `atoi(len)` clamped to `0` from below and then to `REST_MAX_CHUNK_SIZE` from
above when `REST.get_query_variable` returns a non-zero length, and `12` otherwise.  The
value of the query variable is not NUL-terminated: `after` lists the bytes that follow it
in the request, which `atoi` can reach. -/
def hello_length (k : hello_env) (request : rest_request) (after : List Nat) : Int :=
  let len := request.get_query_variable "len"
  if variable_len len ≠ 0 then
    let length0 : Int := k.atoi (variable_bytes len ++ after)
    let length1 : Int := if length0 < 0 then 0 else length0
    if length1 > (k.REST_MAX_CHUNK_SIZE : Int) then (k.REST_MAX_CHUNK_SIZE : Int)
    else length1
  else 12

/-- The handler `helloworld_handler(request, response, buffer, preferred_size, offset)`.
The result is `none` when `memcpy` would read past the end of `message`. -/
def helloworld_handler (k : hello_env) (request : rest_request) (after : List Nat)
    (response : rest_response) (buffer : Nat → Nat) : Option hello_result :=
  let length : Int := hello_length k request after
  match memcpy_writes (c_str hello_message) length.toNat with
  | none => none
  | some ws =>
    some
      { response := { response with payload := some (payload_ptr.frame, length) }
        headers := [rest_header.content_type_TEXT_PLAIN, rest_header.etag length 1]
        writes := ws
        buffer := apply_writes buffer ws }

/-- Digits read by a decimal conversion, most significant first, added to `acc`. -/
def atoi_digits : List Nat → Int → Int
  | [], acc => acc
  | b :: bs, acc =>
    if 48 ≤ b ∧ b ≤ 57 then atoi_digits bs (acc * 10 + ((b - 48 : Nat) : Int)) else acc

/-- An `atoi` for evaluating the handler on examples: white space, an optional sign, then
decimal digits; the mathematical value of the digits read. -/
def sample_atoi : List Nat → Int
  | [] => 0
  | b :: bs =>
    if b = 32 ∨ (9 ≤ b ∧ b ≤ 13) then sample_atoi bs
    else if b = 45 then - atoi_digits bs 0
    else if b = 43 then atoi_digits bs 0
    else atoi_digits (b :: bs) 0

/-- An environment with `REST_MAX_CHUNK_SIZE = 64`, the length of `message`. -/
def sample_hello_env : hello_env :=
  { REST_MAX_CHUNK_SIZE := 64
    atoi := sample_atoi }

/-- A request to the hello-world resource with the given value of the query variable
`len`. -/
def hello_request (len : Option String) : rest_request :=
  { get_query_variable := fun name => if name = "len" then len.map c_bytes else none
    get_post_variable := fun _ => none }

/-! ## Event resource -/

/-- The static variables `event_i` and `content[10]` of `event_event_handler`. -/
structure event_state where
  event_i : Nat
  content : List Nat
  deriving DecidableEq, Repr

/-- Arguments of the call `REST.notify_subscribers(r->url, 0, event_i, content, length)`:
the message type, the observe value, the array passed as payload and the payload
length. -/
structure notify_call where
  type : Nat
  observe : Nat
  payload : List Nat
  payload_len : Int
  deriving DecidableEq, Repr

/-- Text produced by the format `"EVENT %lu"`. -/
def fmt_event_lu (n : Nat) : List Nat :=
  c_bytes "EVENT " ++ (Nat.toDigits 10 n).map Char.toNat

/-- The function `event_event_handler(r)`: the static variables after the call and the
notification it issues; `event_i` is a `uint32_t`. -/
def event_event_handler (st : event_state) : event_state × notify_call :=
  let event_i := (st.event_i + 1) % 2 ^ 32
  let content := array_store st.content (snprintf_writes 0 10 (fmt_event_lu event_i))
  ({ event_i := event_i, content := content },
    { type := 0
      observe := event_i
      payload := content
      payload_len := snprintf_ret (fmt_event_lu event_i) })

/-! ## Facts about the C library model -/

theorem toDigitsCore_length_ge (b : Nat) :
    ∀ (fuel n : Nat) (ds : List Char), ds.length ≤ (Nat.toDigitsCore b fuel n ds).length := by
  intro fuel
  induction fuel with
  | zero => intro n ds; simp [Nat.toDigitsCore]
  | succ f ih =>
    intro n ds
    simp only [Nat.toDigitsCore]
    split
    · simp
    · exact le_trans (by simp) (ih _ _)

theorem toDigits_length_pos (n : Nat) : 1 ≤ (Nat.toDigits 10 n).length := by
  unfold Nat.toDigits
  simp only [Nat.toDigitsCore]
  split
  · simp
  · exact le_trans (by simp) (toDigitsCore_length_ge 10 _ _ _)

theorem fmt_bar_ld_bar_length (v : Int) : 3 ≤ (fmt_bar_ld_bar v).length := by
  have h := toDigits_length_pos v.natAbs
  simp only [fmt_bar_ld_bar, fmt_ld, List.length_append, List.length_map, List.length_cons,
    List.length_nil]
  omega

theorem snprintf_writes_ok (p pos size : Nat) (text : List Nat) (h : pos + size ≤ p + 1) :
    ∀ w ∈ snprintf_writes pos size text, write_ok p w := by
  intro w hw
  unfold snprintf_writes at hw
  split at hw
  · simp at hw
  · rename_i hs
    rw [List.mem_append] at hw
    rcases hw with hw | hw
    · rw [List.mem_map] at hw
      obtain ⟨ib, hib, rfl⟩ := hw
      have hlt := List.fst_lt_of_mem_enum hib
      have hlen : (text.take (size - 1)).length ≤ size - 1 := by
        rw [List.length_take]; exact Nat.min_le_left _ _
      refine ⟨?_, fun _ => ?_, fun hterm => ?_⟩
      · simp only []; omega
      · simp only []; omega
      · simp at hterm
    · simp only [List.mem_singleton] at hw
      subst hw
      have hlen : (text.take (size - 1)).length ≤ size - 1 := by
        rw [List.length_take]; exact Nat.min_le_left _ _
      refine ⟨?_, fun hterm => ?_, fun _ => rfl⟩
      · simp only []; omega
      · simp at hterm

theorem text_count_append (a b : List mem_write) :
    text_count (a ++ b) = text_count a + text_count b := by
  simp [text_count, List.filter_append]

theorem text_count_snprintf_writes (pos size : Nat) (text : List Nat) :
    text_count (snprintf_writes pos size text) ≤ min text.length (size - 1) := by
  unfold snprintf_writes text_count
  split
  · simp
  · rw [List.filter_append]
    have h1 : (List.filter (fun w => !w.terminator)
        ((text.take (size - 1)).enum.map fun ib => mem_write.mk (pos + ib.1) ib.2 false)).length
        ≤ min text.length (size - 1) := by
      refine le_trans (List.length_filter_le _ _) ?_
      rw [List.length_map, List.enum_length, List.length_take, Nat.min_comm]
    simpa using h1

theorem snprintf_writes_idx_le (pos size : Nat) (text : List Nat) :
    ∀ w ∈ snprintf_writes pos size text, w.idx ≤ pos + text.length := by
  intro w hw
  unfold snprintf_writes at hw
  have hlen : (text.take (size - 1)).length ≤ text.length := by
    rw [List.length_take]; exact Nat.min_le_right _ _
  split at hw
  · simp at hw
  · rw [List.mem_append] at hw
    rcases hw with hw | hw
    · rw [List.mem_map] at hw
      obtain ⟨ib, hib, rfl⟩ := hw
      have hlt := List.fst_lt_of_mem_enum hib
      simp only
      omega
    · simp only [List.mem_singleton] at hw
      subst hw
      simp only
      omega

theorem stores_at_append (i : Nat) (a b : List mem_write) :
    stores_at i (a ++ b) = stores_at i a + stores_at i b := by
  simp [stores_at, List.filter_append]

theorem stores_at_eq_zero (i : Nat) (ws : List mem_write) (h : ∀ w ∈ ws, w.idx ≠ i) :
    stores_at i ws = 0 := by
  unfold stores_at
  rw [List.length_eq_zero, List.filter_eq_nil_iff]
  intro w hw
  simpa using h w hw

theorem stores_at_snprintf_writes (p pos size : Nat) (text : List Nat)
    (h : pos + size ≤ p + 1) : stores_at p (snprintf_writes pos size text) ≤ 1 := by
  have hok := snprintf_writes_ok p pos size text h
  unfold snprintf_writes at hok ⊢
  split
  · simp [stores_at]
  · rename_i hs
    rw [if_neg hs] at hok
    rw [stores_at_append, stores_at_eq_zero]
    · simpa [stores_at] using List.length_filter_le _ [_]
    · intro w hw heq
      have hwok := hok w (List.mem_append_left _ hw)
      rw [List.mem_map] at hw
      obtain ⟨ib, -, rfl⟩ := hw
      have := hwok.2.1 rfl
      omega

theorem apply_writes_untouched (ws : List mem_write) :
    ∀ (m : Nat → Nat) (i : Nat), (∀ w ∈ ws, w.idx ≠ i) → apply_writes m ws i = m i := by
  induction ws with
  | nil => intro m i _; rfl
  | cons w ws ih =>
    intro m i h
    have hw : w.idx ≠ i := h w (List.mem_cons_self _ _)
    have hrest : ∀ v ∈ ws, v.idx ≠ i := fun v hv => h v (List.mem_cons_of_mem _ hv)
    show apply_writes (store_byte m w) ws i = m i
    rw [ih (store_byte m w) i hrest]
    simp only [store_byte]
    rw [if_neg (fun e => hw e.symm)]

/-! ## The data-generation loop -/

theorem gen_inv_round (p : Nat) (off : Int) (s : gen_state) (hinv : gen_inv p s)
    (hlt : s.strpos < (p : Int)) : gen_inv p (chunks_round p off s) := by
  obtain ⟨h0, hw, hidx, hc1, hc2, hst⟩ := hinv
  have hlen := fmt_bar_ld_bar_length off
  have hcnt := text_count_snprintf_writes s.strpos.toNat ((p : Int) - s.strpos + 1).toNat
    (fmt_bar_ld_bar off)
  have hsz : ((p : Int) - s.strpos + 1).toNat - 1 = ((p : Int) - s.strpos).toNat := by omega
  rw [hsz] at hcnt
  refine ⟨?_, ?_, ?_, ?_, ?_, ?_⟩
  · simp only [chunks_round, snprintf_ret]; omega
  · intro w hmem
    simp only [chunks_round, List.mem_append] at hmem
    rcases hmem with hmem | hmem
    · exact hw w hmem
    · exact snprintf_writes_ok p _ _ _ (by omega) w hmem
  · intro w hmem
    simp only [chunks_round, List.mem_append] at hmem
    simp only [chunks_round, snprintf_ret]
    rcases hmem with hmem | hmem
    · have := hidx w hmem
      omega
    · have := snprintf_writes_idx_le _ _ _ w hmem
      omega
  · simp only [chunks_round, snprintf_ret, text_count_append]
    have := Nat.min_le_left (fmt_bar_ld_bar off).length ((p : Int) - s.strpos).toNat
    push_cast
    omega
  · simp only [chunks_round, text_count_append]
    have := Nat.min_le_right (fmt_bar_ld_bar off).length ((p : Int) - s.strpos).toNat
    omega
  · simp only [chunks_round, stores_at_append]
    have hold : stores_at p s.writes = 0 := by
      apply stores_at_eq_zero
      intro w hmem heq
      have := hidx w hmem
      omega
    have hnew := stores_at_snprintf_writes p s.strpos.toNat ((p : Int) - s.strpos + 1).toNat
      (fmt_bar_ld_bar off) (by omega)
    omega

theorem chunks_loop_spec (p : Nat) (off : Int) :
    ∀ (fuel : Nat) (s : gen_state), gen_inv p s → (p : Int) - s.strpos ≤ fuel →
      ∃ g, chunks_loop p off fuel s = some g ∧ gen_inv p g ∧ (p : Int) ≤ g.strpos := by
  intro fuel
  induction fuel with
  | zero =>
    intro s hinv hfuel
    refine ⟨s, ?_, hinv, by omega⟩
    simp only [chunks_loop]
    rw [if_neg (by omega)]
  | succ f ih =>
    intro s hinv hfuel
    by_cases hlt : s.strpos < (p : Int)
    · have hlen := fmt_bar_ld_bar_length off
      have hstep : (p : Int) - (chunks_round p off s).strpos ≤ f := by
        simp only [chunks_round, snprintf_ret]; omega
      obtain ⟨g, hg, hginv, hgp⟩ := ih (chunks_round p off s) (gen_inv_round p off s hinv hlt) hstep
      refine ⟨g, ?_, hginv, hgp⟩
      simp only [chunks_loop]
      rw [if_pos hlt]
      exact hg
    · refine ⟨s, ?_, hinv, by omega⟩
      simp only [chunks_loop]
      rw [if_neg hlt]

theorem gen_inv_init (p : Nat) : gen_inv p ⟨0, [], 0⟩ := by
  refine ⟨le_refl _, ?_, ?_, ?_, ?_, ?_⟩
  · intro w hw; simp at hw
  · intro w hw; simp at hw
  · simp [text_count]
  · simp [text_count]
  · simp [stores_at]

/-- Behaviour of `chunks_handler` below the end of the resource: it returns, reports the
frame buffer with `min preferred_size (CHUNKS_TOTAL - offset)` bytes as payload, moves the
cursor by that amount or to `-1`, and every store respects the frame. -/
theorem chunks_handler_spec (resp : rest_response) (buf : Nat → Nat) (p : Nat) (c : Int)
    (hc : c < CHUNKS_TOTAL) :
    ∃ r, chunks_handler resp buf p c = some r ∧
      r.response = { resp with payload := some (payload_ptr.frame, min (p : Int) (CHUNKS_TOTAL - c)) } ∧
      r.offset = (if c + min (p : Int) (CHUNKS_TOTAL - c) ≥ CHUNKS_TOTAL then -1
        else c + min (p : Int) (CHUNKS_TOTAL - c)) ∧
      (∀ w ∈ r.writes, write_ok p w) ∧ text_count r.writes ≤ p ∧
      stores_at p r.writes ≤ 1 ∧ r.buffer = apply_writes buf r.writes := by
  obtain ⟨g, hg, ⟨_, hw, _, _, hcnt, hst⟩, hgp⟩ :=
    chunks_loop_spec p c p ⟨0, [], 0⟩ (gen_inv_init p) (by simp)
  have h1 : (if g.strpos > (p : Int) then (p : Int) else g.strpos) = p := by
    split <;> omega
  have h2 : (if c + (p : Int) > CHUNKS_TOTAL then CHUNKS_TOTAL - c else (p : Int))
      = min (p : Int) (CHUNKS_TOTAL - c) := by
    split <;> omega
  unfold chunks_handler
  rw [if_neg (by omega), hg]
  simp only [h1, h2]
  exact ⟨_, rfl, rfl, rfl, hw, hcnt, hst, rfl⟩

/-! ## The transfer driven by the engine -/

theorem ceil_div_one (d p : Nat) (hd : 0 < d) (hdp : d ≤ p) : (d + p - 1) / p = 1 := by
  apply Nat.div_eq_of_lt_le <;> omega

theorem ceil_div_step (d p : Nat) (hp : 0 < p) (hdp : p < d) :
    (d + p - 1) / p = (d - p + p - 1) / p + 1 := by
  have h : d + p - 1 = (d - p + p - 1) + p := by omega
  rw [h, Nat.add_div_right _ hp]

/-- A transfer started at a cursor `c` inside the resource with a frame of at least one
byte: it ends, takes `ceil ((2050 - c) / p)` invocations, delivers `2050 - c` bytes, enters
every invocation at `c` plus the bytes delivered before, fills every frame but the last,
and sets the sentinel in the last invocation only. -/
theorem chunks_transfer_spec (p : Nat) (hp : 1 ≤ p) :
    ∀ (m c : Nat) (buf : Nat → Nat), c < 2050 → 2050 - c ≤ m →
      ∃ tr : List (Int × chunks_result),
        (∀ fuel, tr.length ≤ fuel → chunks_transfer p fuel buf (c : Int) = some tr) ∧
        tr.length = (2050 - c + p - 1) / p ∧
        (tr.map fun e => payload_len e.2).sum = 2050 - (c : Int) ∧
        (∀ pre e post, tr = pre ++ e :: post →
          e.1 = (c : Int) + (pre.map fun e => payload_len e.2).sum ∧
          (post ≠ [] → payload_len e.2 = (p : Int) ∧ e.2.offset ≠ -1) ∧
          (post = [] →
            payload_len e.2 = 2050 - (c : Int) - ((tr.length : Int) - 1) * (p : Int) ∧
            e.2.offset = -1)) := by
  intro m
  induction m with
  | zero => intro c buf hc hm; omega
  | succ m ih =>
    intro c buf hc hm
    obtain ⟨r, hr, hresp, hoff, -⟩ :=
      chunks_handler_spec ⟨none, none⟩ buf p (c : Int) (by simp only [CHUNKS_TOTAL]; omega)
    have hlen : payload_len r = min (p : Int) (CHUNKS_TOTAL - c) := by
      simp [payload_len, hresp]
    by_cases hlast : 2050 ≤ c + p
    · have hn : min (p : Int) (CHUNKS_TOTAL - c) = 2050 - (c : Int) := by
        simp only [CHUNKS_TOTAL]; omega
      rw [hn] at hlen hoff
      have hoff1 : r.offset = -1 := by rw [hoff]; simp [CHUNKS_TOTAL]
      refine ⟨[((c : Int), r)], ?_, ?_, ?_, ?_⟩
      · intro fuel hf
        cases fuel with
        | zero => simp at hf
        | succ f => simp [chunks_transfer, hr, hoff1]
      · rw [ceil_div_one (2050 - c) p (by omega) (by omega)]; rfl
      · simp [hlen]
      · intro pre e post h
        cases pre with
        | nil =>
          simp only [List.nil_append, List.cons.injEq] at h
          obtain ⟨rfl, rfl⟩ := h
          simp [hlen, hoff1]
        | cons y ys =>
          simp at h
    · have hn : min (p : Int) (CHUNKS_TOTAL - c) = (p : Int) := by
        simp only [CHUNKS_TOTAL]; omega
      rw [hn] at hlen hoff
      have hoff1 : r.offset = ((c + p : Nat) : Int) := by
        rw [hoff, if_neg (by simp only [CHUNKS_TOTAL]; omega)]; push_cast; rfl
      have hne : r.offset ≠ -1 := by rw [hoff1]; omega
      obtain ⟨tr, hrun, hcount, hsum, hsplit⟩ := ih (c + p) r.buffer (by omega) (by omega)
      have hpos : 0 < tr.length := by
        rw [hcount]
        apply Nat.div_pos <;> omega
      refine ⟨((c : Int), r) :: tr, ?_, ?_, ?_, ?_⟩
      · intro fuel hf
        cases fuel with
        | zero => simp at hf
        | succ f =>
          have hf1 : tr.length ≤ f := by simpa using hf
          simp only [chunks_transfer, hr, if_neg hne]
          rw [hoff1, hrun f hf1]
          rfl
      · rw [List.length_cons, hcount, ceil_div_step (2050 - c) p (by omega) (by omega)]
        have : 2050 - (c + p) = 2050 - c - p := by omega
        rw [this]
      · simp only [List.map_cons, List.sum_cons, hsum, hlen]
        push_cast
        omega
      · intro pre e post h
        cases pre with
        | nil =>
          simp only [List.nil_append, List.cons.injEq] at h
          obtain ⟨rfl, rfl⟩ := h
          refine ⟨by simp, fun _ => ⟨hlen, hne⟩, fun hnil => ?_⟩
          rw [hnil] at hpos
          simp at hpos
        | cons y ys =>
          simp only [List.cons_append, List.cons.injEq] at h
          obtain ⟨rfl, htr⟩ := h
          obtain ⟨h1, h2, h3⟩ := hsplit ys e post htr
          refine ⟨?_, h2, fun hnil => ?_⟩
          · rw [h1]
            simp only [List.map_cons, List.sum_cons, hlen]
            push_cast
            omega
          · obtain ⟨h4, h5⟩ := h3 hnil
            refine ⟨?_, h5⟩
            rw [h4]
            simp only [List.length_cons]
            push_cast
            ring

/-! ## Properties of the chunk-wise resource -/

/-- C1: for every `preferred_size ≥ 1` the transfer that starts at cursor `0` and passes
the cursor left by each invocation of `chunks_handler` to the next one, until the cursor is
the sentinel `-1`, comes to an end; the lengths of its slices sum to `CHUNKS_TOTAL = 2050`,
and every invocation is entered with the cursor equal to the sum of the lengths of all
earlier slices, so no byte position is served twice or skipped. -/
theorem chunks_transfer_complete (p : Nat) (hp : 1 ≤ p) (buf : Nat → Nat) :
    ∃ tr : List (Int × chunks_result),
      (∀ fuel, tr.length ≤ fuel → chunks_transfer p fuel buf 0 = some tr) ∧
      (tr.map fun e => payload_len e.2).sum = CHUNKS_TOTAL ∧
      ∀ pre e post, tr = pre ++ e :: post →
        e.1 = (pre.map fun e => payload_len e.2).sum := by
  obtain ⟨tr, hrun, -, hsum, hsplit⟩ :=
    chunks_transfer_spec p hp 2050 0 buf (by decide) (by decide)
  refine ⟨tr, hrun, ?_, ?_⟩
  · rw [hsum]; rfl
  · intro pre e post h
    have := (hsplit pre e post h).1
    simpa using this

theorem chunks_transfer_complete_witness :
    1 ≤ 64 ∧ ∃ tr : List (Int × chunks_result),
      (∀ fuel, tr.length ≤ fuel → chunks_transfer 64 fuel (fun _ => 0) 0 = some tr) ∧
      (tr.map fun e => payload_len e.2).sum = CHUNKS_TOTAL ∧
      ∀ pre e post, tr = pre ++ e :: post →
        e.1 = (pre.map fun e => payload_len e.2).sum :=
  ⟨by decide, chunks_transfer_complete 64 (by decide) (fun _ => 0)⟩

/-- C2 fails for an empty frame: with `preferred_size = 0` and cursor `5` the handler
returns the positive cursor `5` together with a payload of length `0`. -/
theorem chunks_handler_stall_empty_frame :
    ∃ r, chunks_handler ⟨none, none⟩ (fun _ => 0) 0 5 = some r ∧
      0 < r.offset ∧ r.offset = 5 ∧ r.response.payload = some (payload_ptr.frame, 0) :=
  ⟨_, rfl, by decide, by decide, by decide⟩

/-- C2 as amended: for every cursor and every `preferred_size ≥ 1`, `chunks_handler`
returns, and whenever the cursor it leaves is positive, the payload length it reported is
not zero. -/
theorem chunks_handler_no_stall (resp : rest_response) (buf : Nat → Nat) (p : Nat)
    (c : Int) (hp : 1 ≤ p) :
    ∃ r, chunks_handler resp buf p c = some r ∧
      (0 < r.offset → ∃ ptr n, r.response.payload = some (ptr, n) ∧ n ≠ 0) := by
  by_cases hc : c < CHUNKS_TOTAL
  · obtain ⟨r, hr, hresp, hoff, -⟩ := chunks_handler_spec resp buf p c hc
    refine ⟨r, hr, fun _ => ⟨payload_ptr.frame, min (p : Int) (CHUNKS_TOTAL - c), ?_, ?_⟩⟩
    · rw [hresp]
    · omega
  · refine ⟨_, by unfold chunks_handler; rw [if_pos (by omega)], fun _ => ⟨_, _, rfl, ?_⟩⟩
    decide

theorem chunks_handler_no_stall_witness :
    1 ≤ 64 ∧ ∃ r, chunks_handler ⟨none, none⟩ (fun _ => 0) 64 128 = some r ∧
      (0 < r.offset → ∃ ptr n, r.response.payload = some (ptr, n) ∧ n ≠ 0) :=
  ⟨by decide, chunks_handler_no_stall ⟨none, none⟩ (fun _ => 0) 64 128 (by decide)⟩

/-- C3: for every cursor and every `preferred_size` the handler returns; no store goes to
a buffer index above `preferred_size`, every store at index `preferred_size` is the NUL
terminator and there is at most one such store, the number of text characters stored is at
most `preferred_size`, a slice reported as payload (pointer to the frame buffer) has a
length between `0` and `preferred_size`, and the bytes above index `preferred_size` keep
their values. -/
theorem chunks_handler_bounded_write (resp : rest_response) (buf : Nat → Nat) (p : Nat)
    (c : Int) :
    ∃ r, chunks_handler resp buf p c = some r ∧
      (∀ w ∈ r.writes, w.idx ≤ p ∧ (w.idx = p → w.terminator = true ∧ w.byte = 0)) ∧
      stores_at p r.writes ≤ 1 ∧
      text_count r.writes ≤ p ∧
      (∀ n, r.response.payload = some (payload_ptr.frame, n) → 0 ≤ n ∧ n ≤ (p : Int)) ∧
      r.buffer = apply_writes buf r.writes ∧
      (∀ i, p < i → r.buffer i = buf i) := by
  by_cases hc : c < CHUNKS_TOTAL
  · obtain ⟨r, hr, hresp, -, hw, hcnt, hst, hbuf⟩ := chunks_handler_spec resp buf p c hc
    have hidx : ∀ w ∈ r.writes, w.idx ≤ p ∧ (w.idx = p → w.terminator = true ∧ w.byte = 0) := by
      intro w hmem
      obtain ⟨h1, h2, h3⟩ := hw w hmem
      refine ⟨h1, fun heq => ?_⟩
      cases hterm : w.terminator with
      | false => have := h2 hterm; omega
      | true => exact ⟨rfl, h3 hterm⟩
    refine ⟨r, hr, hidx, hst, hcnt, ?_, hbuf, ?_⟩
    · intro n hn
      rw [hresp] at hn
      simp only [Option.some.injEq, Prod.mk.injEq, true_and] at hn
      simp only [CHUNKS_TOTAL] at hn hc
      omega
    · intro i hi
      rw [hbuf]
      apply apply_writes_untouched
      intro w hmem
      have := (hidx w hmem).1
      omega
  · refine ⟨_, by unfold chunks_handler; rw [if_pos (by omega)], ?_, ?_, ?_, ?_, rfl, fun _ _ => rfl⟩
    · intro w hmem; simp at hmem
    · simp [stores_at]
    · simp [text_count]
    · intro n hn; simp at hn

/-- C4: for every cursor at or beyond `CHUNKS_TOTAL = 2050` and every `preferred_size`,
`chunks_handler` sets the status `BAD_OPTION` and the error payload `"BlockOutOfScope"`
(15 bytes), stores nothing in the frame buffer and leaves the cursor as it was. -/
theorem chunks_handler_out_of_scope (resp : rest_response) (buf : Nat → Nat) (p : Nat)
    (c : Int) (hc : CHUNKS_TOTAL ≤ c) :
    ∃ r, chunks_handler resp buf p c = some r ∧
      r.response.status = some rest_status.BAD_OPTION ∧
      r.response.payload = some (payload_ptr.literal "BlockOutOfScope", 15) ∧
      r.writes = [] ∧ r.buffer = buf ∧ r.offset = c :=
  ⟨_, by unfold chunks_handler; rw [if_pos (by omega)], rfl, rfl, rfl, rfl, rfl⟩

theorem chunks_handler_out_of_scope_witness :
    CHUNKS_TOTAL ≤ 2050 ∧
    ∃ r, chunks_handler ⟨none, none⟩ (fun _ => 0) 64 2050 = some r ∧
      r.response.status = some rest_status.BAD_OPTION ∧
      r.response.payload = some (payload_ptr.literal "BlockOutOfScope", 15) ∧
      r.writes = [] ∧ r.buffer = (fun _ => 0) ∧ r.offset = 2050 :=
  ⟨by decide, chunks_handler_out_of_scope ⟨none, none⟩ (fun _ => 0) 64 2050 (by decide)⟩

/-- C8: for every cursor `c` with `0 ≤ c < 2050` and every `preferred_size`, the handler
returns and advances the cursor by the slice length `n` it reported: the cursor is `c + n`
when `c + n < 2050`, and it is the sentinel `-1` exactly when `c + n ≥ 2050`. -/
theorem chunks_handler_advance (resp : rest_response) (buf : Nat → Nat) (p : Nat) (c : Int)
    (h0 : 0 ≤ c) (hc : c < CHUNKS_TOTAL) :
    ∃ r n, chunks_handler resp buf p c = some r ∧
      r.response.payload = some (payload_ptr.frame, n) ∧
      (c + n < CHUNKS_TOTAL → r.offset = c + n) ∧
      (r.offset = -1 ↔ CHUNKS_TOTAL ≤ c + n) := by
  obtain ⟨r, hr, hresp, hoff, -⟩ := chunks_handler_spec resp buf p c hc
  refine ⟨r, min (p : Int) (CHUNKS_TOTAL - c), hr, by rw [hresp], ?_, ?_⟩
  · intro hlt
    rw [hoff, if_neg (by omega)]
  · rw [hoff]
    constructor
    · intro h
      by_contra hcon
      rw [if_neg (by omega)] at h
      omega
    · intro h
      rw [if_pos (by omega)]

theorem chunks_handler_advance_witness :
    (0 : Int) ≤ 2048 ∧ (2048 : Int) < CHUNKS_TOTAL ∧
    ∃ r n, chunks_handler ⟨none, none⟩ (fun _ => 0) 64 2048 = some r ∧
      r.response.payload = some (payload_ptr.frame, n) ∧
      (2048 + n < CHUNKS_TOTAL → r.offset = 2048 + n) ∧
      (r.offset = -1 ↔ CHUNKS_TOTAL ≤ 2048 + n) :=
  ⟨by decide, by decide,
    chunks_handler_advance ⟨none, none⟩ (fun _ => 0) 64 2048 (by decide) (by decide)⟩

/-- C9: for every `preferred_size = p ≥ 1` the transfer started at cursor `0` takes
exactly `ceil (2050 / p)` invocations of `chunks_handler`; every slice before the last has
length `p` and leaves a cursor other than `-1`, the last slice has length
`2050 - (ceil (2050 / p) - 1) * p`, and the last invocation sets the sentinel `-1`. -/
theorem chunks_transfer_invocations (p : Nat) (hp : 1 ≤ p) (buf : Nat → Nat) :
    ∃ tr : List (Int × chunks_result),
      (∀ fuel, tr.length ≤ fuel → chunks_transfer p fuel buf 0 = some tr) ∧
      tr.length = (2050 + p - 1) / p ∧
      ∀ pre e post, tr = pre ++ e :: post →
        (post ≠ [] → payload_len e.2 = (p : Int) ∧ e.2.offset ≠ -1) ∧
        (post = [] →
          payload_len e.2 = 2050 - ((((2050 + p - 1) / p : Nat) : Int) - 1) * (p : Int) ∧
          e.2.offset = -1) := by
  obtain ⟨tr, hrun, hcount, -, hsplit⟩ :=
    chunks_transfer_spec p hp 2050 0 buf (by decide) (by decide)
  refine ⟨tr, hrun, hcount, ?_⟩
  intro pre e post h
  obtain ⟨-, h2, h3⟩ := hsplit pre e post h
  refine ⟨h2, fun hnil => ?_⟩
  obtain ⟨h4, h5⟩ := h3 hnil
  refine ⟨?_, h5⟩
  rw [h4, hcount]
  simp

/-- C9 at `preferred_size = 64`: 33 invocations, every slice but the last 64 bytes long,
last slice 2 bytes long, sentinel in the last invocation only. -/
theorem chunks_transfer_invocations_witness :
    1 ≤ 64 ∧ ∃ tr : List (Int × chunks_result),
      (∀ fuel, tr.length ≤ fuel → chunks_transfer 64 fuel (fun _ => 0) 0 = some tr) ∧
      tr.length = 33 ∧
      ∀ pre e post, tr = pre ++ e :: post →
        (post ≠ [] → payload_len e.2 = 64 ∧ e.2.offset ≠ -1) ∧
        (post = [] → payload_len e.2 = 2 ∧ e.2.offset = -1) :=
  ⟨by decide, chunks_transfer_invocations 64 (by decide) (fun _ => 0)⟩

/-! ## Properties of the separate resource -/

theorem array_store_stored_info (buf : List Nat) (hlen : buf.length = 16) :
    array_store buf (snprintf_writes 0 16 (c_bytes "StoredInfo"))
      = c_bytes "StoredInfo" ++ [0] ++ buf.drop 11 := by
  rcases buf with _ | ⟨b0, _ | ⟨b1, _ | ⟨b2, _ | ⟨b3, _ | ⟨b4, _ | ⟨b5, _ | ⟨b6, _ | ⟨b7,
    _ | ⟨b8, _ | ⟨b9, _ | ⟨b10, _ | ⟨b11, _ | ⟨b12, _ | ⟨b13, _ | ⟨b14, _ | ⟨b15,
    _ | ⟨b16, rest⟩⟩⟩⟩⟩⟩⟩⟩⟩⟩⟩⟩⟩⟩⟩⟩⟩ <;> simp at hlen
  rfl

theorem strlen_stored_info (tl : List Nat) :
    strlen (c_bytes "StoredInfo" ++ [0] ++ tl) = some 10 := by
  rfl

/-- In every state the program can reach the store array has 16 bytes, and while the slot
is occupied it starts with the text `StoredInfo` followed by the terminator. -/
theorem separate_reachable_inv {Request Packet Transaction : Type}
    (env : coap_env Request Packet Transaction) (st : separate_state)
    (h : separate_reachable env st) :
    st.separate_store.buffer.length = 16 ∧
      (st.separate_active ≠ 0 →
        st.separate_store.buffer
          = c_bytes "StoredInfo" ++ [0] ++ st.separate_store.buffer.drop 11) := by
  induction h with
  | start md buf hlen => exact ⟨hlen, fun h => absurd rfl h⟩
  | deferral st request response _ ih =>
    by_cases hact : st.separate_active ≠ 0
    · have : (separate_handler env request response st).2 = st := by
        simp only [separate_handler, if_pos hact]
      rw [this]
      exact ih
    · have hst : (separate_handler env request response st).2.separate_store.buffer
          = c_bytes "StoredInfo" ++ [0] ++ st.separate_store.buffer.drop 11 := by
        simp only [separate_handler, if_neg hact]
        exact array_store_stored_info _ ih.1
      have hl : (separate_handler env request response st).2.separate_store.buffer.length
          = 16 := by
        rw [hst]
        have := ih.1
        simp only [List.length_append, List.length_drop, this]
        rfl
      refine ⟨hl, fun _ => ?_⟩
      conv_lhs => rw [hst]
      conv_rhs => rw [hst]
      rfl
  | finalize st st1 log _ hfin ih =>
    unfold separate_finalize_handler at hfin
    simp only at hfin
    split at hfin
    · split at hfin
      · split at hfin
        · simp at hfin
        · simp only [Option.some.injEq, Prod.mk.injEq] at hfin
          obtain ⟨rfl, -⟩ := hfin
          exact ⟨ih.1, fun h => absurd rfl h⟩
      · simp only [Option.some.injEq, Prod.mk.injEq] at hfin
        obtain ⟨rfl, -⟩ := hfin
        exact ih
    · simp only [Option.some.injEq, Prod.mk.injEq] at hfin
      obtain ⟨rfl, -⟩ := hfin
      exact ih

/-- C5: in every state with the slot occupied (`separate_active ≠ 0`), `separate_handler`
sets the status `SERVICE_UNAVAILABLE` with the payload `"AlreadyInUse"` and leaves
`separate_active` and the whole stored record as they were.  In particular, of two
deferrals from an idle state with no finalize in between, the first is accepted (no status
set, `separate_active = 1`) and the second is rejected with the record of the first
unchanged. -/
theorem separate_handler_occupied {Request Packet Transaction : Type}
    (env : coap_env Request Packet Transaction) (request request2 : Request)
    (response response2 : rest_response) (st st0 : separate_state)
    (hact : st.separate_active ≠ 0) (hidle : st0.separate_active = 0) :
    separate_handler env request response st
        = ({ response with
              status := some rest_status.SERVICE_UNAVAILABLE
              payload := some (payload_ptr.literal "AlreadyInUse", 12) }, st) ∧
      (separate_handler env request response st0).1 = response ∧
      (separate_handler env request response st0).2.separate_active = 1 ∧
      separate_handler env request2 response2 (separate_handler env request response st0).2
        = ({ response2 with
              status := some rest_status.SERVICE_UNAVAILABLE
              payload := some (payload_ptr.literal "AlreadyInUse", 12) },
            (separate_handler env request response st0).2) := by
  have hocc : ∀ (rq : Request) (rs : rest_response) (s : separate_state),
      s.separate_active ≠ 0 →
      separate_handler env rq rs s
        = ({ rs with
              status := some rest_status.SERVICE_UNAVAILABLE
              payload := some (payload_ptr.literal "AlreadyInUse", 12) }, s) := by
    intro rq rs s hs
    simp only [separate_handler, if_pos hs]
    rfl
  have hfree : ¬ st0.separate_active ≠ 0 := fun h => h hidle
  have h1 : (separate_handler env request response st0).1 = response := by
    simp only [separate_handler, if_neg hfree]
  have h2 : (separate_handler env request response st0).2.separate_active = 1 := by
    simp only [separate_handler, if_neg hfree]
  refine ⟨hocc request response st hact, h1, h2, hocc request2 response2 _ ?_⟩
  rw [h2]
  decide

theorem separate_handler_occupied_witness :
    sample_pending.separate_active ≠ 0 ∧ sample_idle.separate_active = 0 ∧
    (separate_handler (sample_env true) sample_request ⟨none, none⟩ sample_pending
        = ({ (⟨none, none⟩ : rest_response) with
              status := some rest_status.SERVICE_UNAVAILABLE
              payload := some (payload_ptr.literal "AlreadyInUse", 12) }, sample_pending) ∧
      (separate_handler (sample_env true) sample_request ⟨none, none⟩ sample_idle).1
        = ⟨none, none⟩ ∧
      (separate_handler (sample_env true) sample_request ⟨none, none⟩
        sample_idle).2.separate_active = 1 ∧
      separate_handler (sample_env true) sample_request ⟨none, none⟩
          (separate_handler (sample_env true) sample_request ⟨none, none⟩ sample_idle).2
        = ({ (⟨none, none⟩ : rest_response) with
              status := some rest_status.SERVICE_UNAVAILABLE
              payload := some (payload_ptr.literal "AlreadyInUse", 12) },
            (separate_handler (sample_env true) sample_request ⟨none, none⟩ sample_idle).2)) :=
  ⟨by decide, by decide,
    separate_handler_occupied (sample_env true) sample_request sample_request ⟨none, none⟩
      ⟨none, none⟩ sample_pending sample_idle (by decide) (by decide)⟩

/-- C6: when the slot is occupied and `coap_new_transaction` fails,
`separate_finalize_handler` returns with the stored record and `separate_active` exactly as
before (state PENDING); its only call into the transaction layer is the failed request, and
nothing is handed to the transport. -/
theorem separate_finalize_retains {Request Packet Transaction : Type}
    (env : coap_env Request Packet Transaction) (st : separate_state)
    (hact : st.separate_active ≠ 0)
    (hfail : env.coap_new_transaction st.separate_store.request_metadata.mid
      st.separate_store.request_metadata.addr st.separate_store.request_metadata.port = none) :
    ∃ log, separate_finalize_handler env st = some (st, log) ∧
      log = [coap_effect.new_transaction st.separate_store.request_metadata.mid
        st.separate_store.request_metadata.addr st.separate_store.request_metadata.port] ∧
      sent_count log = 0 := by
  refine ⟨_, ?_, rfl, rfl⟩
  simp only [separate_finalize_handler, if_pos hact, hfail]

theorem separate_finalize_retains_witness :
    sample_pending.separate_active ≠ 0 ∧
    (sample_env false).coap_new_transaction sample_pending.separate_store.request_metadata.mid
      sample_pending.separate_store.request_metadata.addr
      sample_pending.separate_store.request_metadata.port = none ∧
    ∃ log, separate_finalize_handler (sample_env false) sample_pending
        = some (sample_pending, log) ∧
      log = [coap_effect.new_transaction sample_pending.separate_store.request_metadata.mid
        sample_pending.separate_store.request_metadata.addr
        sample_pending.separate_store.request_metadata.port] ∧
      sent_count log = 0 :=
  ⟨by decide, rfl, separate_finalize_retains (sample_env false) sample_pending (by decide) rfl⟩

/-- Finalize with the slot occupied, a transaction available and a terminated string of
length `n` in the store array. -/
theorem separate_finalize_handler_sends {Request Packet Transaction : Type}
    (env : coap_env Request Packet Transaction) (st : separate_state) (t : Transaction)
    (n : Nat) (hact : st.separate_active ≠ 0)
    (hacq : env.coap_new_transaction st.separate_store.request_metadata.mid
      st.separate_store.request_metadata.addr st.separate_store.request_metadata.port = some t)
    (hstr : strlen st.separate_store.buffer = some n) :
    separate_finalize_handler env st
      = some ({ st with separate_active := 0 },
          [coap_effect.new_transaction st.separate_store.request_metadata.mid
             st.separate_store.request_metadata.addr st.separate_store.request_metadata.port,
           coap_effect.send_transaction t
             (env.coap_serialize_message
               (env.coap_set_header_block2
                 (env.coap_set_payload
                   (env.coap_separate_resume st.separate_store.request_metadata
                     env.CONTENT_2_05)
                   st.separate_store.buffer n)
                 st.separate_store.request_metadata.block2_num 0
                 st.separate_store.request_metadata.block2_size)).1
             (env.coap_serialize_message
               (env.coap_set_header_block2
                 (env.coap_set_payload
                   (env.coap_separate_resume st.separate_store.request_metadata
                     env.CONTENT_2_05)
                   st.separate_store.buffer n)
                 st.separate_store.request_metadata.block2_num 0
                 st.separate_store.request_metadata.block2_size)).2]) := by
  simp only [separate_finalize_handler, if_pos hact, hacq, hstr]

/-- C7: in every state the program can reach with the slot occupied, when
`coap_new_transaction` succeeds, `separate_finalize_handler` requests the transaction with
the saved MID, address and port (one request), builds the response from the saved request
metadata with `coap_separate_resume`, sets as payload the string held in the stored buffer
(the 10 characters `StoredInfo`), sets the Block2 option to the saved block number and
block size with more-flag `0`, hands the serialized message to the transport exactly once,
and frees the slot (`separate_active = 0`), so that a following deferral is accepted. -/
theorem separate_finalize_resumes {Request Packet Transaction : Type}
    (env : coap_env Request Packet Transaction) (st : separate_state) (t : Transaction)
    (hreach : separate_reachable env st) (hact : st.separate_active ≠ 0)
    (hacq : env.coap_new_transaction st.separate_store.request_metadata.mid
      st.separate_store.request_metadata.addr st.separate_store.request_metadata.port = some t) :
    ∃ st1 log msg,
      separate_finalize_handler env st = some (st1, log) ∧
      strlen st.separate_store.buffer = some 10 ∧
      st.separate_store.buffer.take 10 = c_bytes "StoredInfo" ∧
      msg = env.coap_serialize_message
        (env.coap_set_header_block2
          (env.coap_set_payload
            (env.coap_separate_resume st.separate_store.request_metadata env.CONTENT_2_05)
            st.separate_store.buffer 10)
          st.separate_store.request_metadata.block2_num 0
          st.separate_store.request_metadata.block2_size) ∧
      log = [coap_effect.new_transaction st.separate_store.request_metadata.mid
               st.separate_store.request_metadata.addr
               st.separate_store.request_metadata.port,
             coap_effect.send_transaction t msg.1 msg.2] ∧
      acquire_count log = 1 ∧ sent_count log = 1 ∧
      st1 = { st with separate_active := 0 } ∧
      ∀ (request : Request) (response : rest_response),
        (separate_handler env request response st1).1 = response ∧
        (separate_handler env request response st1).2.separate_active = 1 := by
  have hbuf := (separate_reachable_inv env st hreach).2 hact
  have hstr : strlen st.separate_store.buffer = some 10 := by
    rw [hbuf]; exact strlen_stored_info _
  have htake : st.separate_store.buffer.take 10 = c_bytes "StoredInfo" := by
    rw [hbuf]; rfl
  refine ⟨_, _, _, separate_finalize_handler_sends env st t 10 hact hacq hstr, hstr, htake,
    rfl, rfl, rfl, rfl, rfl, fun request response => ?_⟩
  constructor <;> simp [separate_handler]

theorem separate_finalize_resumes_witness :
    separate_reachable (sample_env true) sample_pending ∧
    sample_pending.separate_active ≠ 0 ∧
    (sample_env true).coap_new_transaction sample_pending.separate_store.request_metadata.mid
      sample_pending.separate_store.request_metadata.addr
      sample_pending.separate_store.request_metadata.port = some 4660 ∧
    ∃ st1 log msg,
      separate_finalize_handler (sample_env true) sample_pending = some (st1, log) ∧
      strlen sample_pending.separate_store.buffer = some 10 ∧
      sample_pending.separate_store.buffer.take 10 = c_bytes "StoredInfo" ∧
      msg = (sample_env true).coap_serialize_message
        ((sample_env true).coap_set_header_block2
          ((sample_env true).coap_set_payload
            ((sample_env true).coap_separate_resume
              sample_pending.separate_store.request_metadata (sample_env true).CONTENT_2_05)
            sample_pending.separate_store.buffer 10)
          sample_pending.separate_store.request_metadata.block2_num 0
          sample_pending.separate_store.request_metadata.block2_size) ∧
      log = [coap_effect.new_transaction sample_pending.separate_store.request_metadata.mid
               sample_pending.separate_store.request_metadata.addr
               sample_pending.separate_store.request_metadata.port,
             coap_effect.send_transaction 4660 msg.1 msg.2] ∧
      acquire_count log = 1 ∧ sent_count log = 1 ∧
      st1 = { sample_pending with separate_active := 0 } ∧
      ∀ (request : coap_separate_t) (response : rest_response),
        (separate_handler (sample_env true) request response st1).1 = response ∧
        (separate_handler (sample_env true) request response st1).2.separate_active = 1 :=
  have hreach : separate_reachable (sample_env true) sample_pending :=
    separate_reachable.deferral sample_idle sample_request ⟨none, none⟩
      (separate_reachable.start _ _ rfl)
  ⟨hreach, by decide, rfl,
    separate_finalize_resumes (sample_env true) sample_pending 4660 hreach (by decide) rfl⟩

/-! ## Properties of the LED resource -/

/-- C10 at the request `color=r`, `mode=o`: the mode value is not `on` or `off`, yet
`leds_handler` switches the red LED on and sets no status; with `mode=of` it switches the
red LED off.  The comparison `strncmp(mode, "on", len)` looks at the first `len`
characters only, `len` being the length of the value sent. -/
theorem leds_handler_accepts_mode_prefix (k : leds_consts) (response : rest_response) :
    leds_handler k (leds_request (some "r") (some "o")) response
        = (response, [led_effect.leds_on k.LEDS_RED]) ∧
      leds_handler k (leds_request (some "r") (some "of")) response
        = (response, [led_effect.leds_off k.LEDS_RED]) :=
  ⟨rfl, rfl⟩

/-! ## Further properties of the separate resource -/

/-- C11: with the slot free (`separate_active = 0`) and the 16-byte store array,
`separate_handler` sets `separate_active = 1`, puts into the store the metadata that
`coap_separate_yield` captures from the request, stores the string `"StoredInfo"` in the
array (all 10 characters and the terminator, the bytes from index 11 on keep their
values; the return value 10 of `snprintf` is below the size 16), and returns the response
as it was: neither a status nor a payload is set. -/
theorem separate_handler_free {Request Packet Transaction : Type}
    (env : coap_env Request Packet Transaction) (request : Request)
    (response : rest_response) (st : separate_state)
    (hfree : st.separate_active = 0) (hlen : st.separate_store.buffer.length = 16) :
    ∃ st1, separate_handler env request response st = (response, st1) ∧
      st1.separate_active = 1 ∧
      st1.separate_store.request_metadata
        = env.coap_separate_yield request st.separate_store.request_metadata ∧
      st1.separate_store.buffer
        = c_bytes "StoredInfo" ++ [0] ++ st.separate_store.buffer.drop 11 ∧
      st1.separate_store.buffer.length = 16 ∧
      strlen st1.separate_store.buffer = some 10 ∧
      st1.separate_store.buffer.take 10 = c_bytes "StoredInfo" ∧
      snprintf_ret (c_bytes "StoredInfo") = 10 := by
  have hnot : ¬ st.separate_active ≠ 0 := fun h => h hfree
  have hbuf := array_store_stored_info st.separate_store.buffer hlen
  have hrun : separate_handler env request response st
      = (response,
          { separate_active := 1
            separate_store :=
              { request_metadata :=
                  env.coap_separate_yield request st.separate_store.request_metadata
                buffer :=
                  array_store st.separate_store.buffer
                    (snprintf_writes 0 16 (c_bytes "StoredInfo")) } }) := by
    simp only [separate_handler, if_neg hnot]
  refine ⟨_, hrun, rfl, rfl, hbuf, ?_, ?_, ?_, rfl⟩
  · simp only [hbuf, List.length_append, List.length_drop, hlen]
    rfl
  · simp only [hbuf]
    exact strlen_stored_info _
  · simp only [hbuf]
    rfl

theorem separate_handler_free_witness :
    sample_idle.separate_active = 0 ∧ sample_idle.separate_store.buffer.length = 16 ∧
    ∃ st1, separate_handler (sample_env true) sample_request ⟨none, none⟩ sample_idle
        = (⟨none, none⟩, st1) ∧
      st1.separate_active = 1 ∧
      st1.separate_store.request_metadata
        = (sample_env true).coap_separate_yield sample_request
            sample_idle.separate_store.request_metadata ∧
      st1.separate_store.buffer
        = c_bytes "StoredInfo" ++ [0] ++ sample_idle.separate_store.buffer.drop 11 ∧
      st1.separate_store.buffer.length = 16 ∧
      strlen st1.separate_store.buffer = some 10 ∧
      st1.separate_store.buffer.take 10 = c_bytes "StoredInfo" ∧
      snprintf_ret (c_bytes "StoredInfo") = 10 :=
  ⟨rfl, rfl,
    separate_handler_free (sample_env true) sample_request ⟨none, none⟩ sample_idle rfl rfl⟩

/-- C12: with the slot free (`separate_active = 0`), `separate_finalize_handler` returns
without any call into the transaction layer (no transaction requested, nothing sent) and
leaves `separate_active` and the store as they were. -/
theorem separate_finalize_free {Request Packet Transaction : Type}
    (env : coap_env Request Packet Transaction) (st : separate_state)
    (hfree : st.separate_active = 0) :
    ∃ log, separate_finalize_handler env st = some (st, log) ∧
      log = [] ∧ acquire_count log = 0 ∧ sent_count log = 0 := by
  have hnot : ¬ st.separate_active ≠ 0 := fun h => h hfree
  exact ⟨[], by simp only [separate_finalize_handler, if_neg hnot], rfl, rfl, rfl⟩

theorem separate_finalize_free_witness :
    sample_idle.separate_active = 0 ∧
    ∃ log, separate_finalize_handler (sample_env true) sample_idle = some (sample_idle, log) ∧
      log = [] ∧ acquire_count log = 0 ∧ sent_count log = 0 :=
  ⟨rfl, separate_finalize_free (sample_env true) sample_idle rfl⟩

/-! ## Further properties of the chunk-wise resource -/

/-- C14: for every cursor `c` with `0 ≤ c < 2050` and every `preferred_size = p`, the
handler returns and the length it reports as payload length is `min p (2050 - c)`: the
generation loop ends with `strpos ≥ p`, `strpos` is clamped to `p` and then cut to the
`2050 - c` bytes that remain. -/
theorem chunks_handler_slice_length (resp : rest_response) (buf : Nat → Nat) (p : Nat)
    (c : Int) (h0 : 0 ≤ c) (hc : c < CHUNKS_TOTAL) :
    ∃ r g, chunks_handler resp buf p c = some r ∧
      chunks_loop p c p ⟨0, [], 0⟩ = some g ∧ (p : Int) ≤ g.strpos ∧
      r.response.payload = some (payload_ptr.frame, min (p : Int) (2050 - c)) ∧
      0 ≤ min (p : Int) (2050 - c) := by
  obtain ⟨r, hr, hresp, -⟩ := chunks_handler_spec resp buf p c hc
  obtain ⟨g, hg, -, hgp⟩ := chunks_loop_spec p c p ⟨0, [], 0⟩ (gen_inv_init p) (by simp)
  refine ⟨r, g, hr, hg, hgp, by rw [hresp]; rfl, ?_⟩
  simp only [CHUNKS_TOTAL] at hc
  omega

theorem chunks_handler_slice_length_witness :
    (0 : Int) ≤ 2000 ∧ (2000 : Int) < CHUNKS_TOTAL ∧
    ∃ r g, chunks_handler ⟨none, none⟩ (fun _ => 0) 64 2000 = some r ∧
      chunks_loop 64 2000 64 ⟨0, [], 0⟩ = some g ∧ ((64 : Nat) : Int) ≤ g.strpos ∧
      r.response.payload = some (payload_ptr.frame, 50) ∧
      (0 : Int) ≤ 50 :=
  ⟨by decide, by decide,
    chunks_handler_slice_length ⟨none, none⟩ (fun _ => 0) 64 2000 (by decide) (by decide)⟩

/-- C17: for every negative cursor `c` (the sentinel `-1` included) and every
`preferred_size = p`, `chunks_handler` does not reject the invocation: it returns with the
status of the response untouched, reports a slice of `min p (2050 - c)` bytes of the frame
buffer, and moves the cursor to `c` plus that length, or to `-1` when that reaches 2050. -/
theorem chunks_handler_negative_cursor (resp : rest_response) (buf : Nat → Nat) (p : Nat)
    (c : Int) (hneg : c < 0) :
    ∃ r, chunks_handler resp buf p c = some r ∧
      r.response.status = resp.status ∧
      r.response.payload = some (payload_ptr.frame, min (p : Int) (2050 - c)) ∧
      r.offset = (if c + min (p : Int) (2050 - c) ≥ 2050 then -1
        else c + min (p : Int) (2050 - c)) := by
  obtain ⟨r, hr, hresp, hoff, -⟩ :=
    chunks_handler_spec resp buf p c (by simp only [CHUNKS_TOTAL]; omega)
  exact ⟨r, hr, by rw [hresp], by rw [hresp]; rfl, by rw [hoff]; rfl⟩

/-- C17 at cursor `-1` and `preferred_size = 64`: no status is set, the slice has 64
bytes and the cursor becomes 63. -/
theorem chunks_handler_negative_cursor_witness :
    (-1 : Int) < 0 ∧
    ∃ r, chunks_handler ⟨none, none⟩ (fun _ => 0) 64 (-1) = some r ∧
      r.response.status = none ∧
      r.response.payload = some (payload_ptr.frame, 64) ∧
      r.offset = 63 :=
  ⟨by decide, chunks_handler_negative_cursor ⟨none, none⟩ (fun _ => 0) 64 (-1) (by decide)⟩

/-! ## Number of rounds of the data-generation loop -/

theorem chunks_round_advance (p : Nat) (off : Int) (s : gen_state) :
    s.strpos + 3 ≤ (chunks_round p off s).strpos ∧
      (chunks_round p off s).rounds = s.rounds + 1 := by
  have hlen := fmt_bar_ld_bar_length off
  refine ⟨?_, rfl⟩
  simp only [chunks_round, snprintf_ret]
  omega

/-- Three bytes of progress per round: when the loop returns, three times the number of
rounds is at most `strpos`, and at most `p + 2`. -/
theorem chunks_loop_rounds (p : Nat) (off : Int) :
    ∀ (fuel : Nat) (s g : gen_state), chunks_loop p off fuel s = some g →
      3 * (s.rounds : Int) ≤ s.strpos → 3 * s.rounds ≤ p + 2 →
      3 * (g.rounds : Int) ≤ g.strpos ∧ 3 * g.rounds ≤ p + 2 := by
  intro fuel
  induction fuel with
  | zero =>
    intro s g h h1 h2
    simp only [chunks_loop] at h
    split at h
    · simp at h
    · simp only [Option.some.injEq] at h
      subst h
      exact ⟨h1, h2⟩
  | succ f ih =>
    intro s g h h1 h2
    simp only [chunks_loop] at h
    split at h
    · rename_i hlt
      obtain ⟨hadv, hrounds⟩ := chunks_round_advance p off s
      apply ih (chunks_round p off s) g h
      · rw [hrounds]; push_cast; omega
      · rw [hrounds]; omega
    · simp only [Option.some.injEq] at h
      subst h
      exact ⟨h1, h2⟩

/-- Fuel of one third of the distance to `p`, rounded up, is enough for the loop, and more
fuel does not change its result. -/
theorem chunks_loop_fuel (p : Nat) (off : Int) :
    ∀ (fuel : Nat) (s : gen_state), (p : Int) - s.strpos ≤ 3 * (fuel : Int) →
      ∃ g, ∀ fuel1, fuel ≤ fuel1 → chunks_loop p off fuel1 s = some g := by
  intro fuel
  induction fuel with
  | zero =>
    intro s hfuel
    refine ⟨s, fun fuel1 _ => ?_⟩
    cases fuel1 with
    | zero => simp only [chunks_loop]; rw [if_neg (by omega)]
    | succ f1 => simp only [chunks_loop]; rw [if_neg (by omega)]
  | succ f ih =>
    intro s hfuel
    by_cases hlt : s.strpos < (p : Int)
    · obtain ⟨hadv, -⟩ := chunks_round_advance p off s
      obtain ⟨g, hg⟩ := ih (chunks_round p off s) (by push_cast at hfuel; omega)
      refine ⟨g, fun fuel1 hle => ?_⟩
      cases fuel1 with
      | zero => omega
      | succ f1 =>
        simp only [chunks_loop]
        rw [if_pos hlt]
        exact hg f1 (by omega)
    · refine ⟨s, fun fuel1 _ => ?_⟩
      cases fuel1 with
      | zero => simp only [chunks_loop]; rw [if_neg hlt]
      | succ f1 => simp only [chunks_loop]; rw [if_neg hlt]

/-- C15: for every cursor and every `preferred_size = p` the handler returns, and its
data-generation loop runs at most `ceil (p / 3)` rounds: every round advances `strpos` by
at least 3 whatever the size given to `snprintf`, the loop started at `strpos = 0` returns
within `ceil (p / 3)` rounds of fuel, and the number of rounds executed is at most
`ceil (p / 3)`. -/
theorem chunks_handler_terminates (resp : rest_response) (buf : Nat → Nat) (p : Nat)
    (c : Int) :
    ∃ r g, chunks_handler resp buf p c = some r ∧
      r.rounds ≤ (p + 2) / 3 ∧
      (∀ s : gen_state, s.strpos + 3 ≤ (chunks_round p c s).strpos) ∧
      (∀ fuel, (p + 2) / 3 ≤ fuel → chunks_loop p c fuel ⟨0, [], 0⟩ = some g) ∧
      g.rounds ≤ (p + 2) / 3 ∧
      (c < CHUNKS_TOTAL → r.rounds = g.rounds) := by
  have hadv : ∀ s : gen_state, s.strpos + 3 ≤ (chunks_round p c s).strpos :=
    fun s => (chunks_round_advance p c s).1
  obtain ⟨g, hg⟩ := chunks_loop_fuel p c ((p + 2) / 3) ⟨0, [], 0⟩ (by
    simp only [sub_zero]
    omega)
  have hgp : chunks_loop p c p ⟨0, [], 0⟩ = some g := hg p (by omega)
  have hrounds := (chunks_loop_rounds p c p ⟨0, [], 0⟩ g hgp (by simp) (by simp)).2
  have hbound : g.rounds ≤ (p + 2) / 3 := by omega
  by_cases hc : c < CHUNKS_TOTAL
  · have hr : ∃ r, chunks_handler resp buf p c = some r ∧ r.rounds = g.rounds := by
      unfold chunks_handler
      rw [if_neg (by omega), hgp]
      exact ⟨_, rfl, rfl⟩
    obtain ⟨r, hr1, hr2⟩ := hr
    exact ⟨r, g, hr1, by rw [hr2]; exact hbound, hadv, hg, hbound, fun _ => hr2⟩
  · have hr : ∃ r, chunks_handler resp buf p c = some r ∧ r.rounds = 0 := by
      unfold chunks_handler
      rw [if_pos (by omega)]
      exact ⟨_, rfl, rfl⟩
    obtain ⟨r, hr1, hr2⟩ := hr
    exact ⟨r, g, hr1, by rw [hr2]; exact Nat.zero_le _, hadv, hg, hbound,
      fun h => absurd h hc⟩

/-! ## Properties of the hello-world resource -/

theorem apply_writes_append_one (m : Nat → Nat) (ws : List mem_write) (w : mem_write) :
    apply_writes m (ws ++ [w]) = store_byte (apply_writes m ws) w := by
  simp [apply_writes, List.foldl_append]

/-- Memory after the stores of `memcpy`: the first `n` bytes are those of the source, the
others keep their values. -/
theorem apply_writes_memcpy (src : List Nat) (m : Nat → Nat) :
    ∀ (n i : Nat),
      apply_writes m ((List.range n).map fun j => mem_write.mk j (src.getD j 0) false) i
        = if i < n then src.getD i 0 else m i := by
  intro n
  induction n with
  | zero => intro i; simp [apply_writes]
  | succ n ih =>
    intro i
    rw [List.range_succ, List.map_append, List.map_singleton, apply_writes_append_one]
    simp only [store_byte]
    by_cases hi : i = n
    · subst hi
      simp
    · rw [if_neg hi, ih i]
      by_cases hlt : i < n
      · rw [if_pos hlt, if_pos (by omega)]
      · rw [if_neg hlt, if_neg (by omega)]

theorem variable_len_eq_zero (v : Option (List Nat)) :
    variable_len v = 0 ↔ v = none ∨ v = some [] := by
  cases v with
  | none => simp [variable_len]
  | some bs => simp [variable_len]

theorem hello_length_default (k : hello_env) (request : rest_request) (after : List Nat)
    (h : variable_len (request.get_query_variable "len") = 0) :
    hello_length k request after = 12 := by
  simp only [hello_length]
  rw [if_neg (fun hne => hne h)]

theorem hello_length_clamped (k : hello_env) (request : rest_request) (after : List Nat)
    (v : List Nat) (hv : request.get_query_variable "len" = some v) (hne : v ≠ []) :
    hello_length k request after
      = max 0 (min (k.atoi (v ++ after)) (k.REST_MAX_CHUNK_SIZE : Int)) := by
  have hlen : variable_len (request.get_query_variable "len") ≠ 0 := by
    rw [hv]
    simpa [variable_len] using hne
  simp only [hello_length]
  rw [if_pos hlen, hv]
  simp only [variable_bytes]
  split <;> split <;> omega

theorem hello_length_bounds (k : hello_env) (request : rest_request) (after : List Nat)
    (hlo : 12 ≤ k.REST_MAX_CHUNK_SIZE) :
    0 ≤ hello_length k request after ∧
      hello_length k request after ≤ (k.REST_MAX_CHUNK_SIZE : Int) := by
  simp only [hello_length]
  split
  · split <;> split <;> omega
  · omega

/-- C13 fails for a `len` variable with an empty value: for the query `len=` the variable
is present, its integer value is `0`, which clamped into `[0, 64]` is `0`, yet the handler
reports the payload length `12`. -/
theorem helloworld_handler_empty_len :
    ∃ r, helloworld_handler sample_hello_env (hello_request (some "")) [] ⟨none, none⟩
        (fun _ => 0) = some r ∧
      (hello_request (some "")).get_query_variable "len" = some [] ∧
      max 0 (min (sample_hello_env.atoi ([] ++ []))
        (sample_hello_env.REST_MAX_CHUNK_SIZE : Int)) = 0 ∧
      r.response.payload = some (payload_ptr.frame, 12) :=
  ⟨_, rfl, rfl, by decide, rfl⟩

/-- C13 as amended, for `12 ≤ REST_MAX_CHUNK_SIZE ≤ 64` (`message` has 64 characters):
for every request the handler returns and reports as payload the frame buffer with a
length `n` that is `12` when the request has no query variable `len` or its value is
empty, and otherwise is the result of `atoi` at the value clamped into
`[0, REST_MAX_CHUNK_SIZE]`; `n` is never negative and never exceeds `REST_MAX_CHUNK_SIZE`,
the first `n` bytes of the buffer are the first `n` bytes of `message`, and the other
bytes of the buffer keep their values. -/
theorem helloworld_handler_length (k : hello_env) (request : rest_request)
    (after : List Nat) (response : rest_response) (buffer : Nat → Nat)
    (hlo : 12 ≤ k.REST_MAX_CHUNK_SIZE) (hhi : k.REST_MAX_CHUNK_SIZE ≤ 64) :
    ∃ (r : hello_result) (n : Nat),
      helloworld_handler k request after response buffer = some r ∧
      r.response.payload = some (payload_ptr.frame, (n : Int)) ∧
      (request.get_query_variable "len" = none ∨ request.get_query_variable "len" = some [] →
        n = 12) ∧
      (∀ v, request.get_query_variable "len" = some v → v ≠ [] →
        (n : Int) = max 0 (min (k.atoi (v ++ after)) (k.REST_MAX_CHUNK_SIZE : Int))) ∧
      n ≤ k.REST_MAX_CHUNK_SIZE ∧
      n ≤ (c_bytes hello_message).length ∧
      (∀ i, i < n → r.buffer i = (c_bytes hello_message).getD i 0) ∧
      (∀ i, n ≤ i → r.buffer i = buffer i) := by
  obtain ⟨h0, hmax⟩ := hello_length_bounds k request after hlo
  have hmsg : (c_bytes hello_message).length = 64 := rfl
  have hstr : (c_str hello_message).length = 65 := rfl
  have hn : ((hello_length k request after).toNat : Int) = hello_length k request after :=
    Int.toNat_of_nonneg h0
  have hle : (hello_length k request after).toNat ≤ k.REST_MAX_CHUNK_SIZE := by omega
  have hcopy : memcpy_writes (c_str hello_message) (hello_length k request after).toNat
      = some ((List.range (hello_length k request after).toNat).map fun j =>
          mem_write.mk j ((c_str hello_message).getD j 0) false) := by
    simp only [memcpy_writes]
    rw [if_pos (by omega)]
  have hrun : ∃ r, helloworld_handler k request after response buffer = some r ∧
      r.response.payload = some (payload_ptr.frame, hello_length k request after) ∧
      r.buffer = apply_writes buffer
        ((List.range (hello_length k request after).toNat).map fun j =>
          mem_write.mk j ((c_str hello_message).getD j 0) false) := by
    simp only [helloworld_handler, hcopy]
    exact ⟨_, rfl, rfl, rfl⟩
  obtain ⟨r, hr, hpay, hbuf⟩ := hrun
  refine ⟨r, (hello_length k request after).toNat, hr, by rw [hpay, hn], ?_, ?_, hle,
    by omega, ?_, ?_⟩
  · intro habs
    have := hello_length_default k request after ((variable_len_eq_zero _).2 habs)
    omega
  · intro v hv hne
    rw [hn]
    exact hello_length_clamped k request after v hv hne
  · intro i hi
    rw [hbuf, apply_writes_memcpy, if_pos hi]
    simp only [c_str]
    exact List.getD_append _ _ _ _ (by omega)
  · intro i hi
    rw [hbuf, apply_writes_memcpy, if_neg (by omega)]

theorem helloworld_handler_length_witness :
    12 ≤ sample_hello_env.REST_MAX_CHUNK_SIZE ∧ sample_hello_env.REST_MAX_CHUNK_SIZE ≤ 64 ∧
    ∃ (r : hello_result) (n : Nat),
      helloworld_handler sample_hello_env (hello_request (some "5")) [38] ⟨none, none⟩
        (fun _ => 0) = some r ∧
      r.response.payload = some (payload_ptr.frame, (n : Int)) ∧
      ((hello_request (some "5")).get_query_variable "len" = none ∨
        (hello_request (some "5")).get_query_variable "len" = some [] → n = 12) ∧
      (∀ v, (hello_request (some "5")).get_query_variable "len" = some v → v ≠ [] →
        (n : Int) = max 0 (min (sample_hello_env.atoi (v ++ [38]))
          (sample_hello_env.REST_MAX_CHUNK_SIZE : Int))) ∧
      n ≤ sample_hello_env.REST_MAX_CHUNK_SIZE ∧
      n ≤ (c_bytes hello_message).length ∧
      (∀ i, i < n → r.buffer i = (c_bytes hello_message).getD i 0) ∧
      (∀ i, n ≤ i → r.buffer i = (fun _ => 0) i) :=
  ⟨by decide, by decide,
    helloworld_handler_length sample_hello_env (hello_request (some "5")) [38] ⟨none, none⟩
      (fun _ => 0) (by decide) (by decide)⟩

/-! ## Properties of the event resource -/

/-- C16 at the counter value 999: the call increments the counter to 1000 and passes the
payload length 10 to `notify_subscribers`, while the 10-byte array holds the 9 characters
`EVENT 100` and the terminator.  At the counter value 4294967294 the length passed is 16,
beyond the size of the array. -/
theorem event_event_handler_length_exceeds :
    (event_event_handler ⟨999, List.replicate 10 0⟩).1.event_i = 1000 ∧
      (event_event_handler ⟨999, List.replicate 10 0⟩).2.payload_len = 10 ∧
      (event_event_handler ⟨999, List.replicate 10 0⟩).2.payload
        = c_bytes "EVENT 100" ++ [0] ∧
      strlen (event_event_handler ⟨999, List.replicate 10 0⟩).2.payload = some 9 ∧
      (event_event_handler ⟨4294967294, List.replicate 10 0⟩).2.payload_len = 16 ∧
      (event_event_handler ⟨4294967294, List.replicate 10 0⟩).2.payload.length = 10 :=
  ⟨rfl, rfl, rfl, rfl, rfl, rfl⟩

end RestServerExample
